import Mathlib

/-!
Shallow embedding of the reading-delta computation engine in
DHL_Solar_Import.py (function process_solar_data) and verification of a
set of claims about its behaviour.

Modelling conventions:
* Calendar dates are a structure of integer year, month, day.  The pandas
  Timestamp values produced by to_datetime are always at midnight here, so a
  Timestamp is just a Date.  Chronological comparison of valid dates is the
  lexicographic order on (year, month, day), realised through the injective
  key function dkey.
* The solar sheet is a list of rows; the date cell is modelled after the
  to_datetime(..., errors = coerce) step: an unparsable or missing date is
  already none (NaT), and dropna removes those rows.  Each row carries an
  association list from column name to an optional numeric reading, where
  none models a NaN cell.
* Numeric readings are generic over a type V with subtraction (the Python
  code uses floats; every claim is about subtraction and order only, so the
  embedding is stated for an arbitrary value type and instantiated at Int
  for concrete runs).
* The Python dict named deltas is modelled as the list of its assignments in
  assignment order; dictGet returns the value of the last assignment to a
  key, which is exactly the lookup semantics of a Python dict.
* pandas Series.diff is row-positional: the first row gets NaN and row i
  gets value(i) - value(i-1), with NaN propagating.  meterDeltas is the
  direct recursive transcription of the diff plus the subsequent loop with
  its filter (date >= first_day and not isna(delta)).
* sort_values is modelled with insertionSort on the date key.  The claims
  never involve two rows with an equal date, so stability differences are
  immaterial; theorems that need distinct dates carry that hypothesis,
  which is the RawReading invariant of the data model.
* The template is a list of rows with a Time string, a reference-meter
  string, an optional reading cell and an opaque payload standing for all
  other columns.  The strict strptime conversion of the whole Time column
  is modelled by parseAllTimes: if any cell fails, the surrounding
  try/except makes the whole function return None, hence Option.
* The module returns only the (partially filled) template; the source has
  no diagnostics channel, so nothing else is modelled as an output.
-/

namespace DHLSolar

/-- A calendar date (proleptic Gregorian). -/
structure Date where
  year : Int
  month : Int
  day : Int
deriving DecidableEq, Repr

/-- Gregorian leap-year rule, as implemented by the datetime library that
the source relies on for its date arithmetic. -/
def isLeapYear (y : Int) : Prop := (y % 4 = 0 ∧ ¬ y % 100 = 0) ∨ y % 400 = 0

instance (y : Int) : Decidable (isLeapYear y) :=
  inferInstanceAs (Decidable ((y % 4 = 0 ∧ ¬ y % 100 = 0) ∨ y % 400 = 0))

/-- Number of days in a month, leap-year aware. -/
def daysInMonth (m y : Int) : Int :=
  if m = 2 then (if isLeapYear y then 29 else 28)
  else if m = 4 ∨ m = 6 ∨ m = 9 ∨ m = 11 then 30
  else 31

/-- A date is valid when its month and day lie in the calendar ranges. -/
def validDate (d : Date) : Prop :=
  1 ≤ d.month ∧ d.month ≤ 12 ∧ 1 ≤ d.day ∧ d.day ≤ daysInMonth d.month d.year

instance (d : Date) : Decidable (validDate d) :=
  inferInstanceAs (Decidable (_ ∧ _ ∧ _ ∧ _))

/-- Validity of an optional date cell (a none cell is unconstrained). -/
def validOptDate : Option Date → Prop
  | some d => validDate d
  | none => True

instance (o : Option Date) : Decidable (validOptDate o) :=
  match o with
  | some d => inferInstanceAs (Decidable (validDate d))
  | none => isTrue trivial

/-- Linear key realising chronological order on valid dates: for month in
1..12 and day in 1..31 the map is injective and order preserving. -/
def dkey (d : Date) : Int := d.year * 10000 + d.month * 100 + d.day

/-- Calendar predecessor of a date.  This embeds the date arithmetic
first_day - pd.Timedelta(days=1) of the source: datetime subtraction of one
day yields the previous calendar day, borrowing from the previous month
(with the true leap-year aware day count) and, at January 1, from December
of the previous year. -/
def predDate (d : Date) : Date :=
  if 1 < d.day then ⟨d.year, d.month, d.day - 1⟩
  else if 1 < d.month then ⟨d.year, d.month - 1, daysInMonth (d.month - 1) d.year⟩
  else ⟨d.year - 1, 12, 31⟩

/-- The anchor day used by the source: last_day_prev_month = first_day minus
one day, where first_day = datetime(year, month, 1). -/
def anchorDay (month year : Int) : Date := predDate ⟨year, month, 1⟩

/-- Modelled from the spec: the true last calendar day of a month with
leap-year-correct day counts (stated independently of daysInMonth, for the
refinement comparison of claim C5). -/
def lastCalendarDay (m y : Int) : Int :=
  if m = 4 ∨ m = 6 ∨ m = 9 ∨ m = 11 then 30
  else if m = 2 then (if (y % 4 = 0 ∧ ¬ y % 100 = 0) ∨ y % 400 = 0 then 29 else 28)
  else 31

/-- Modelled from the spec: anchor_day is the last day of month - 1 with the
year unchanged, except that month 1 rolls over to December 31 of the
previous year. -/
def specAnchorDay (month year : Int) : Date :=
  if month = 1 then ⟨year - 1, 12, 31⟩
  else ⟨year, month - 1, lastCalendarDay (month - 1) year⟩

/-- ASCII upper-casing of one character, as str.upper acts on the column
names that occur here. -/
def upChar (c : Char) : Char :=
  if 97 ≤ c.toNat ∧ c.toNat ≤ 122 then Char.ofNat (c.toNat - 32) else c

/-- ASCII upper-casing of a string. -/
def strUpper (s : String) : String := ⟨s.data.map upChar⟩

/-- Contiguous-substring test on character lists (the Python in operator on
strings). -/
def strContainsAux (pat : List Char) : List Char → Bool
  | [] => pat.isEmpty
  | c :: rest => List.isPrefixOf pat (c :: rest) || strContainsAux pat rest

/-- Substring test: pat occurs contiguously in s. -/
def strContains (s pat : String) : Bool := strContainsAux pat.data s.data

/-- The meter-column test of line 30 of the source:
JAFZA in col.upper() or Jafza in col. -/
def hasJafza (c : String) : Bool :=
  strContains (strUpper c) "JAFZA" || strContains c "Jafza"

/-- One raw row of the solar sheet after the date-coercion step: the date
cell is none when the original cell was missing or unparsable (NaT), and
each meter column holds an optional numeric reading (none models NaN). -/
structure SolarRow (V : Type) where
  date : Option Date
  vals : List (String × Option V)
deriving DecidableEq, Repr

/-- The solar sheet: the non-date column names in sheet order, and the rows. -/
structure SolarSheet (V : Type) where
  cols : List String
  rows : List (SolarRow V)
deriving DecidableEq, Repr

/-- Reading of one meter column in a row (none when the cell is NaN or the
column is absent). -/
def getVal {V : Type} (r : SolarRow V) (c : String) : Option V :=
  match r.vals.lookup c with
  | some v => v
  | none => none

/-- Date of a row that survived dropna (defaulted for the none case, which
is filtered out before this is ever relevant). -/
def rowDate {V : Type} (r : SolarRow V) : Date := r.date.getD ⟨0, 0, 0⟩

/-- Row comparison used by the sort on the date column. -/
def rowLe {V : Type} (r s : SolarRow V) : Prop :=
  dkey (rowDate r) ≤ dkey (rowDate s)

instance {V : Type} : DecidableRel (rowLe (V := V)) :=
  fun r s => inferInstanceAs (Decidable (dkey (rowDate r) ≤ dkey (rowDate s)))

instance {V : Type} : IsTotal (SolarRow V) rowLe :=
  ⟨fun r s => Int.le_total (dkey (rowDate r)) (dkey (rowDate s))⟩

instance {V : Type} : IsTrans (SolarRow V) rowLe :=
  ⟨fun _ _ _ h1 h2 => le_trans h1 h2⟩

/-- The row filter of lines 13 and 20-24 of the source: the row has a
parsed date, and that date lies in the selected month and year or equals
the last day of the previous month. -/
def inWindow {V : Type} (month year : Int) (anchor : Date) (r : SolarRow V) : Bool :=
  match r.date with
  | none => false
  | some d => decide ((d.month = month ∧ d.year = year) ∨ d = anchor)

/-- Rows surviving dropna and the period filter, in sheet order. -/
def periodRows {V : Type} (sheet : SolarSheet V) (month year : Int) : List (SolarRow V) :=
  sheet.rows.filter (inWindow month year (anchorDay month year))

/-- month_data after sort_values on the date column. -/
def monthData {V : Type} (sheet : SolarSheet V) (month year : Int) : List (SolarRow V) :=
  List.insertionSort rowLe (periodRows sheet month year)

/-- Meter columns discovered by the substring checks of line 30. -/
def meterColumns {V : Type} (sheet : SolarSheet V) : List String :=
  sheet.cols.filter hasJafza

/-- Transcription of Series.diff plus the collection loop of lines 36-40 for
one meter: prev is the reading of the previous row (none before the first
row and when that cell was NaN); a row emits its delta exactly when both
the previous and the current reading are numeric and the row date is at
least first_day. -/
def meterDeltas {V : Type} [Sub V] (firstDay : Date) (meter : String) :
    Option V → List (SolarRow V) → List ((Date × String) × V)
  | _, [] => []
  | prev, r :: rest =>
    (match prev, getVal r meter with
     | some a, some b =>
       if dkey firstDay ≤ dkey (rowDate r) then [((rowDate r, meter), b - a)] else []
     | _, _ => []) ++ meterDeltas firstDay meter (getVal r meter) rest

/-- The deltas dict of lines 33-40, as the list of its assignments: the
outer loop runs over the discovered meter columns, the inner loop over the
sorted month_data rows. -/
def computeDeltas {V : Type} [Sub V] (sheet : SolarSheet V) (month year : Int) :
    List ((Date × String) × V) :=
  (meterColumns sheet).flatMap fun m =>
    meterDeltas ⟨year, month, 1⟩ m none (monthData sheet month year)

/-- Lookup in a Python dict represented by its assignment list: the value
of the last assignment to the key wins. -/
def dictGet {K N : Type} [DecidableEq K] : List (K × N) → K → Option N
  | [], _ => none
  | p :: rest, k =>
    match dictGet rest k with
    | some v => some v
    | none => if p.1 = k then some p.2 else none

/-- Reading of a meter at an exact date among the period rows: none when no
row carries that date or the cell is NaN. -/
def readingAt {V : Type} (sheet : SolarSheet V) (month year : Int) (d : Date)
    (meter : String) : Option V :=
  match (periodRows sheet month year).find? (fun r => decide (rowDate r = d)) with
  | some r => getVal r meter
  | none => none

/-- A timestamp: date plus time of day, the result of parsing a Time cell. -/
structure Timestamp where
  date : Date
  hour : Int
  minute : Int
  second : Int
deriving DecidableEq, Repr

/-- One template row before processing: the raw Time string, the reference
meter, the Solar Energy Meter Reading cell, and an opaque payload standing
for every other cell of the row. -/
structure TRow (V : Type) (A : Type) where
  time : String
  refMeter : String
  reading : Option V
  extra : A
deriving DecidableEq, Repr

/-- One template row after processing: Time has become a parsed timestamp;
the other fields are as in TRow. -/
structure PRow (V : Type) (A : Type) where
  time : Timestamp
  refMeter : String
  reading : Option V
  extra : A
deriving DecidableEq, Repr

/-- Split a character list on a separator character (like str.split for the
one-character separators used by the time format). -/
def splitOnChar (sep : Char) : List Char → List (List Char)
  | [] => [[]]
  | c :: rest =>
    if c = sep then [] :: splitOnChar sep rest
    else
      match splitOnChar sep rest with
      | [] => [[c]]
      | g :: gs => (c :: g) :: gs

/-- ASCII digit test. -/
def isDigitChar (c : Char) : Bool := decide (48 ≤ c.toNat ∧ c.toNat ≤ 57)

/-- Numeric value of a digit string. -/
def natOfDigits (l : List Char) : Nat :=
  l.foldl (fun a c => a * 10 + (c.toNat - 48)) 0

/-- One numeric field of the time format: between one and maxLen digits. -/
def parseField (l : List Char) (maxLen : Nat) : Option Int :=
  if 1 ≤ l.length ∧ l.length ≤ maxLen ∧ l.all isDigitChar = true then
    some ((natOfDigits l : Nat) : Int)
  else none

/-- Strict parse of a Time cell in the format of line 43 of the source,
day-month-year space hour:minute:second, validating calendar and clock
ranges as strptime does; none models the exception that the surrounding
try/except turns into a None result for the whole run. -/
def parseTime (s : String) : Option Timestamp :=
  match splitOnChar ' ' s.data with
  | [dpart, tpart] =>
    match splitOnChar '-' dpart, splitOnChar ':' tpart with
    | [ds, ms, ys], [hs, ins, ss] =>
      match parseField ds 2, parseField ms 2, parseField ys 4,
            parseField hs 2, parseField ins 2, parseField ss 2 with
      | some dd, some mo, some yy, some hh, some mi, some sec =>
        if 1 ≤ mo ∧ mo ≤ 12 ∧ 1 ≤ dd ∧ dd ≤ daysInMonth mo yy ∧
           hh ≤ 23 ∧ mi ≤ 59 ∧ sec ≤ 59 then
          some ⟨⟨yy, mo, dd⟩, hh, mi, sec⟩
        else none
      | _, _, _, _, _, _ => none
    | _, _ => none
  | _ => none

/-- Conversion of the whole Time column (line 43): every cell must parse,
otherwise the run fails as a whole. -/
def parseAllTimes {V A : Type} : List (TRow V A) → Option (List (PRow V A))
  | [] => some []
  | r :: rest =>
    match parseTime r.time, parseAllTimes rest with
    | some ts, some prest => some (⟨ts, r.refMeter, r.reading, r.extra⟩ :: prest)
    | _, _ => none

/-- Reverse lookup of lines 51-55: first mapping key whose value equals the
reference meter, in mapping (insertion) order. -/
def findKey (mapping : List (String × String)) (ext : String) : Option String :=
  match mapping with
  | [] => none
  | (k, v) :: rest => if v = ext then some k else findKey rest ext

/-- Per-row fill of lines 57-62: if the reference meter reverse-resolves to
a non-empty solar meter name (the Python truthiness test on solar_meter)
and the deltas dict has an entry for (row date, solar meter), write that
delta into the reading cell; any KeyError leaves the row unchanged. -/
def fillRow {V A : Type} (deltas : List ((Date × String) × V))
    (mapping : List (String × String)) (r : PRow V A) : PRow V A :=
  match findKey mapping r.refMeter with
  | none => r
  | some k =>
    if k = "" then r
    else
      match dictGet deltas (r.time.date, k) with
      | none => r
      | some x => { r with reading := some x }

/-- The core engine, process_solar_data: compute the deltas dict from the
solar sheet and the period, convert the Time column of the template, and
fill the Solar Energy Meter Reading cells row by row.  The none result
models the except branch that returns None (here reachable through a Time
cell that fails to parse). -/
def process_solar_data {V A : Type} [Sub V] (sheet : SolarSheet V)
    (template : List (TRow V A)) (month year : Int)
    (mapping : List (String × String)) : Option (List (PRow V A)) :=
  match parseAllTimes template with
  | none => none
  | some pt => some (pt.map (fillRow (computeDeltas sheet month year) mapping))

/-- Pointwise strict comparison of two optional readings; pairs with a
missing side are unconstrained.  Used to state that a meter has strictly
increasing readings over the dates present. -/
def valLt {V : Type} [LT V] : Option V → Option V → Prop
  | some a, some b => a < b
  | some _, none => True
  | none, _ => True

instance {V : Type} [LT V] [h : DecidableRel (fun a b : V => a < b)] :
    ∀ a b : Option V, Decidable (valLt a b) := fun a b =>
  match a, b with
  | some x, some y => h x y
  | some _, none => isTrue trivial
  | none, _ => isTrue trivial

/-- Helper building a one-meter row with a parsed date, for concrete runs. -/
def mkIntRow (y m d : Int) (c : String) (v : Option Int) : SolarRow Int :=
  ⟨some ⟨y, m, d⟩, [(c, v)]⟩

/-- Scenario sheet of claim C1 with the meter named literally M1: readings
100 (2024-01-31), 110 (02-01), 125 (02-02), no row for 02-03, 140 (02-04). -/
def sheetC1a : SolarSheet Int :=
  ⟨["M1"],
   [mkIntRow 2024 1 31 "M1" (some 100), mkIntRow 2024 2 1 "M1" (some 110),
    mkIntRow 2024 2 2 "M1" (some 125), mkIntRow 2024 2 4 "M1" (some 140)]⟩

/-- Scenario sheet with a tracked (JAFZA) meter name and the 02-03 row
entirely absent. -/
def sheetC1b : SolarSheet Int :=
  ⟨["JAFZA M1"],
   [mkIntRow 2024 1 31 "JAFZA M1" (some 100), mkIntRow 2024 2 1 "JAFZA M1" (some 110),
    mkIntRow 2024 2 2 "JAFZA M1" (some 125), mkIntRow 2024 2 4 "JAFZA M1" (some 140)]⟩

/-- Scenario sheet with a tracked (JAFZA) meter name and the 02-03 row
present but with a missing (NaN) reading. -/
def sheetC1c : SolarSheet Int :=
  ⟨["JAFZA M1"],
   [mkIntRow 2024 1 31 "JAFZA M1" (some 100), mkIntRow 2024 2 1 "JAFZA M1" (some 110),
    mkIntRow 2024 2 2 "JAFZA M1" (some 125), mkIntRow 2024 2 3 "JAFZA M1" none,
    mkIntRow 2024 2 4 "JAFZA M1" (some 140)]⟩

/-- Sheet of the claim C2 scenario: source meters A and B with full data. -/
def sheetC2 : SolarSheet Int :=
  ⟨["A", "B"],
   [⟨some ⟨2024, 1, 31⟩, [("A", some 100), ("B", some 200)]⟩,
    ⟨some ⟨2024, 2, 1⟩, [("A", some 110), ("B", some 220)]⟩]⟩

/-- Mapping of the claim C2 scenario. -/
def mapC2 : List (String × String) := [("A", "ext-A")]

/-- A one-row template referencing ext-A. -/
def tC2 : List (TRow Int Unit) := [⟨"01-02-2024 23:59:00", "ext-A", none, ()⟩]

/-- The processed template for the claim C2 scenario. -/
def outC2 : List (PRow Int Unit) := [⟨⟨⟨2024, 2, 1⟩, 23, 59, 0⟩, "ext-A", none, ()⟩]

/-- Sheet with a (02-01, JAFZA 1) pair whose delta cannot be computed: the
02-01 reading is NaN. -/
def sheetC3a : SolarSheet Int :=
  ⟨["JAFZA 1"], [mkIntRow 2024 1 31 "JAFZA 1" (some 100), mkIntRow 2024 2 1 "JAFZA 1" none]⟩

/-- The same sheet with the failing row absent altogether. -/
def sheetC3b : SolarSheet Int :=
  ⟨["JAFZA 1"], [mkIntRow 2024 1 31 "JAFZA 1" (some 100)]⟩

/-- Mapping resolving the template reference meter to JAFZA 1. -/
def mapC3 : List (String × String) := [("JAFZA 1", "Jafza 1-Meter 1")]

/-- A one-row template referencing Jafza 1-Meter 1 on 2024-02-01. -/
def tC3 : List (TRow Int Unit) := [⟨"01-02-2024 23:59:00", "Jafza 1-Meter 1", none, ()⟩]

/-- Processed template with the reading cell left untouched. -/
def outC3 : List (PRow Int Unit) := [⟨⟨⟨2024, 2, 1⟩, 23, 59, 0⟩, "Jafza 1-Meter 1", none, ()⟩]

/-- Sheet containing a row whose date cell failed to parse (NaT), before two
well-dated rows. -/
def sheetC7a : SolarSheet Int :=
  ⟨["JAFZA 1"],
   ⟨none, [("JAFZA 1", some 999)]⟩ ::
    [mkIntRow 2024 1 31 "JAFZA 1" (some 100), mkIntRow 2024 2 1 "JAFZA 1" (some 110)]⟩

/-- The same sheet without the unparsable-date row. -/
def sheetC7b : SolarSheet Int :=
  ⟨["JAFZA 1"], [mkIntRow 2024 1 31 "JAFZA 1" (some 100), mkIntRow 2024 2 1 "JAFZA 1" (some 110)]⟩

/-- Processed template with the 02-01 delta of 10 filled in. -/
def outC7 : List (PRow Int Unit) := [⟨⟨⟨2024, 2, 1⟩, 23, 59, 0⟩, "Jafza 1-Meter 1", some 10, ()⟩]

/-- Mapping containing the two non-JAFZA meters of the default mapping. -/
def mapC9 : List (String × String) := [("CGF", "DWC-CGF-Meter 1"), ("AFR", "DWC-AFR-Meter 2")]

/-- A template row referencing the external name that reverse-resolves to
the non-JAFZA column CGF. -/
def rowC9 : PRow Int Unit := ⟨⟨⟨2024, 2, 1⟩, 23, 59, 0⟩, "DWC-CGF-Meter 1", some 7, ()⟩

/-! ### Helper lemmas -/

theorem daysInMonth_le (m y : Int) : daysInMonth m y ≤ 31 := by
  unfold daysInMonth
  split_ifs <;> omega

theorem daysInMonth_pos (m y : Int) : 28 ≤ daysInMonth m y := by
  unfold daysInMonth
  split_ifs <;> omega

theorem daysInMonth_eq_lastCalendarDay (m y : Int) :
    daysInMonth m y = lastCalendarDay m y := by
  unfold daysInMonth lastCalendarDay isLeapYear
  split_ifs <;> omega

theorem dkey_inj_valid {a b : Date} (ha : validDate a) (hb : validDate b)
    (h : dkey a = dkey b) : a = b := by
  obtain ⟨y1, m1, d1⟩ := a
  obtain ⟨y2, m2, d2⟩ := b
  simp only [validDate, dkey] at ha hb h
  simp only [Date.mk.injEq]
  have hc1 := daysInMonth_le m1 y1
  have hc2 := daysInMonth_le m2 y2
  omega

theorem anchorDay_cases (month year : Int) (h1 : 1 ≤ month) (h2 : month ≤ 12) :
    anchorDay month year =
      if month = 1 then ⟨year - 1, 12, 31⟩
      else ⟨year, month - 1, daysInMonth (month - 1) year⟩ := by
  unfold anchorDay predDate
  dsimp only
  rw [if_neg (show ¬ (1 : Int) < 1 by omega)]
  by_cases hm : month = 1
  · subst hm
    rw [if_neg (show ¬ (1 : Int) < 1 by omega), if_pos rfl]
  · rw [if_pos (show (1 : Int) < month by omega), if_neg hm]

theorem validDate_first {month year : Int} (h1 : 1 ≤ month) (h2 : month ≤ 12) :
    validDate ⟨year, month, 1⟩ := by
  unfold validDate
  dsimp only
  have := daysInMonth_pos month year
  refine ⟨h1, h2, le_refl 1, by omega⟩

theorem validDate_anchor {month year : Int} (h1 : 1 ≤ month) (h2 : month ≤ 12) :
    validDate (anchorDay month year) := by
  rw [anchorDay_cases month year h1 h2]
  by_cases hm : month = 1
  · rw [if_pos hm]
    unfold validDate
    dsimp only
    have : daysInMonth 12 (year - 1) = 31 := by unfold daysInMonth; norm_num
    refine ⟨by omega, by omega, by omega, by omega⟩
  · rw [if_neg hm]
    unfold validDate
    dsimp only
    have := daysInMonth_pos (month - 1) year
    refine ⟨by omega, by omega, by omega, le_refl _⟩

theorem anchor_lt_first {month year : Int} (h1 : 1 ≤ month) (h2 : month ≤ 12) :
    dkey (anchorDay month year) < dkey ⟨year, month, 1⟩ := by
  rw [anchorDay_cases month year h1 h2]
  by_cases hm : month = 1
  · rw [if_pos hm]
    unfold dkey
    dsimp only
    omega
  · rw [if_neg hm]
    have hle := daysInMonth_le (month - 1) year
    unfold dkey
    dsimp only
    omega

theorem dictGet_append {K N : Type} [DecidableEq K] (l1 l2 : List (K × N)) (k : K) :
    dictGet (l1 ++ l2) k =
      match dictGet l2 k with
      | some v => some v
      | none => dictGet l1 k := by
  induction l1 with
  | nil =>
    simp only [List.nil_append]
    cases dictGet l2 k <;> rfl
  | cons p rest ih =>
    show (match dictGet (rest ++ l2) k with
          | some v => some v
          | none => if p.1 = k then some p.2 else none) =
         (match dictGet l2 k with
          | some v => some v
          | none =>
            match dictGet rest k with
            | some v => some v
            | none => if p.1 = k then some p.2 else none)
    rw [ih]
    cases dictGet l2 k <;> cases dictGet rest k <;> rfl

theorem dictGet_eq_none {K N : Type} [DecidableEq K] {l : List (K × N)} {k : K}
    (h : ∀ p ∈ l, ¬ p.1 = k) : dictGet l k = none := by
  induction l with
  | nil => rfl
  | cons p rest ih =>
    have hp := h p (List.mem_cons_self p rest)
    have hr : dictGet rest k = none := ih fun q hq => h q (List.mem_cons_of_mem p hq)
    simp [dictGet, hr, hp]

theorem dictGet_append_right_none {K N : Type} [DecidableEq K] {l1 l2 : List (K × N)} {k : K}
    (h : dictGet l2 k = none) : dictGet (l1 ++ l2) k = dictGet l1 k := by
  rw [dictGet_append, h]

theorem meterDeltas_mem {V : Type} [Sub V] {fd : Date} {meter : String} :
    ∀ {pv : Option V} {l : List (SolarRow V)} {e : (Date × String) × V},
      e ∈ meterDeltas fd meter pv l →
      ∃ r ∈ l, e.1.1 = rowDate r ∧ e.1.2 = meter ∧ ∃ b, getVal r meter = some b := by
  intro pv l
  induction l generalizing pv with
  | nil => intro e he; simp [meterDeltas] at he
  | cons r rest ih =>
    intro e he
    simp only [meterDeltas] at he
    rcases List.mem_append.mp he with h1 | h2
    · cases hpv : pv with
      | none => rw [hpv] at h1; simp at h1
      | some a =>
        cases hcur : getVal r meter with
        | none => rw [hpv, hcur] at h1; simp at h1
        | some b =>
          rw [hpv, hcur] at h1
          dsimp only at h1
          by_cases hc : dkey fd ≤ dkey (rowDate r)
          · rw [if_pos hc] at h1
            have he2 := List.mem_singleton.mp h1
            subst he2
            exact ⟨r, List.mem_cons_self r rest, rfl, rfl, b, hcur⟩
          · rw [if_neg hc] at h1
            simp at h1
    · obtain ⟨s, hs, h3, h4, h5⟩ := ih h2
      exact ⟨s, List.mem_cons_of_mem r hs, h3, h4, h5⟩

theorem meterDeltas_key_snd {V : Type} [Sub V] {fd : Date} {meter : String}
    {pv : Option V} {l : List (SolarRow V)} {e : (Date × String) × V}
    (he : e ∈ meterDeltas fd meter pv l) : e.1.2 = meter := by
  obtain ⟨r, _, _, h4, _⟩ := meterDeltas_mem he
  exact h4

theorem meterDeltas_no_fd_key {V : Type} [Sub V] {fd : Date} {meter : String}
    {pv : Option V} {l : List (SolarRow V)}
    (h : ∀ x ∈ l, ¬ rowDate x = fd) :
    dictGet (meterDeltas fd meter pv l) (fd, meter) = none := by
  apply dictGet_eq_none
  intro p hp
  obtain ⟨r, hr, h1, _, _⟩ := meterDeltas_mem hp
  intro hc
  apply h r hr
  rw [← h1, hc]

theorem dictGet_flatMap_none {N : Type} {f : String → List ((Date × String) × N)}
    (hkeys : ∀ m e, e ∈ f m → e.1.2 = m) {ms : List String} {meter : String}
    (hm : ¬ meter ∈ ms) (d : Date) :
    dictGet (ms.flatMap f) (d, meter) = none := by
  apply dictGet_eq_none
  intro p hp
  obtain ⟨m2, hm2, hpf⟩ := List.mem_flatMap.mp hp
  have hk := hkeys m2 p hpf
  intro hc
  apply hm
  have hpm : p.1.2 = meter := by rw [hc]
  have hmm : meter = m2 := by rw [← hpm, hk]
  rw [hmm]
  exact hm2

theorem dictGet_flatMap_eq {N : Type} (f : String → List ((Date × String) × N))
    (hkeys : ∀ m e, e ∈ f m → e.1.2 = m) :
    ∀ (ms : List String), ms.Nodup → ∀ {meter : String}, meter ∈ ms → ∀ (d : Date),
      dictGet (ms.flatMap f) (d, meter) = dictGet (f meter) (d, meter) := by
  intro ms
  induction ms with
  | nil => intro _ meter hmem; cases hmem
  | cons m rest ih =>
    intro hnd meter hmem d
    rw [List.flatMap_cons, dictGet_append]
    rcases List.mem_cons.mp hmem with rfl | hmem2
    · have hnotin : ¬ meter ∈ rest := (List.nodup_cons.mp hnd).1
      have hnone : dictGet (rest.flatMap f) (d, meter) = none :=
        dictGet_flatMap_none hkeys hnotin d
      rw [hnone]
    · have hne : ¬ m = meter := by
        intro hc
        subst hc
        exact (List.nodup_cons.mp hnd).1 hmem2
      have hleft : dictGet (f m) (d, meter) = none := by
        apply dictGet_eq_none
        intro p hp
        have hk := hkeys m p hp
        intro hc
        apply hne
        rw [← hk]
        rw [hc]
      rw [ih (List.nodup_cons.mp hnd).2 hmem2 d, hleft]
      cases dictGet (f meter) (d, meter) <;> rfl

theorem sorted_head_min {V : Type} {md : List (SolarRow V)} {r0 : SolarRow V}
    (hs : List.Sorted rowLe md) (hnd : md.Nodup) (hmem : r0 ∈ md)
    (hmin : ∀ x ∈ md, ¬ x = r0 → dkey (rowDate r0) < dkey (rowDate x)) :
    ∃ t, md = r0 :: t ∧ List.Sorted rowLe t ∧ t.Nodup ∧ ¬ r0 ∈ t := by
  cases md with
  | nil => cases hmem
  | cons x t =>
    obtain ⟨hx, hst⟩ := List.sorted_cons.mp hs
    obtain ⟨hxt, hndt⟩ := List.nodup_cons.mp hnd
    by_cases hxr : x = r0
    · subst hxr
      exact ⟨t, rfl, hst, hndt, hxt⟩
    · exfalso
      have hr0t : r0 ∈ t := by
        rcases List.mem_cons.mp hmem with h | h
        · exact absurd h.symm hxr
        · exact h
      have h1 : dkey (rowDate x) ≤ dkey (rowDate r0) := hx r0 hr0t
      have h2 : dkey (rowDate r0) < dkey (rowDate x) :=
        hmin x (List.mem_cons_self x t) hxr
      omega

theorem mem_periodRows_elim {V : Type} {sheet : SolarSheet V} {month year : Int}
    {x : SolarRow V} (hx : x ∈ periodRows sheet month year)
    (hvalid : ∀ r ∈ sheet.rows, validOptDate r.date) :
    x ∈ sheet.rows ∧ validDate (rowDate x) ∧
      (((rowDate x).month = month ∧ (rowDate x).year = year) ∨
        rowDate x = anchorDay month year) := by
  obtain ⟨hxr, hw⟩ := List.mem_filter.mp hx
  unfold inWindow at hw
  cases hdx : x.date with
  | none => rw [hdx] at hw; cases hw
  | some d =>
    rw [hdx] at hw
    have hcond := of_decide_eq_true hw
    have hrd : rowDate x = d := by unfold rowDate; rw [hdx]; rfl
    have hval : validDate d := by
      have := hvalid x hxr
      unfold validOptDate at this
      rw [hdx] at this
      exact this
    rw [hrd]
    exact ⟨hxr, hval, hcond⟩

theorem find?_date_none {V : Type} {P : List (SolarRow V)} {d : Date}
    (h : P.find? (fun r => decide (rowDate r = d)) = none) :
    ∀ x ∈ P, ¬ rowDate x = d := by
  intro x hx
  have := List.find?_eq_none.mp h x hx
  simpa using this

theorem find?_date_some {V : Type} {P : List (SolarRow V)} {d : Date} {r : SolarRow V}
    (h : P.find? (fun x => decide (rowDate x = d)) = some r) :
    r ∈ P ∧ rowDate r = d := by
  have h1 := List.find?_some h
  exact ⟨List.mem_of_find?_eq_some h, by simpa using h1⟩

/-! ### Claim C5: anchor day -/

/-- Claim C5: for every month in 1..12 and every year, the anchor day used
to seed the first delta (first_day minus one day) is the true last calendar
day of the immediately preceding month, with December/January year rollover
and leap-year-correct day counts; in particular month 1 of 2024 gives
2023-12-31 and month 3 of 2024 gives 2024-02-29. -/
theorem anchor_day_correct (month year : Int) (h1 : 1 ≤ month) (h2 : month ≤ 12) :
    anchorDay month year = specAnchorDay month year ∧
    anchorDay 1 2024 = ⟨2023, 12, 31⟩ ∧ anchorDay 3 2024 = ⟨2024, 2, 29⟩ := by
  refine ⟨?_, by decide, by decide⟩
  rw [anchorDay_cases month year h1 h2]
  unfold specAnchorDay
  by_cases hm : month = 1
  · rw [if_pos hm, if_pos hm]
  · rw [if_neg hm, if_neg hm, daysInMonth_eq_lastCalendarDay]

/-- Witness for claim C5 at the leap-year example month 3 of 2024. -/
theorem anchor_day_correct_witness :
    (1 : Int) ≤ 3 ∧ (3 : Int) ≤ 12 ∧
      (anchorDay 3 2024 = specAnchorDay 3 2024 ∧
        anchorDay 1 2024 = ⟨2023, 12, 31⟩ ∧ anchorDay 3 2024 = ⟨2024, 2, 29⟩) :=
  ⟨by decide, by decide, anchor_day_correct 3 2024 (by decide) (by decide)⟩

/-! ### Claim C1: the scenario and the predecessor actually consulted -/

/-- Claim C1 counterexample: on the scenario exactly as stated (meter named
M1), the engine emits no delta at all, because M1 is not a tracked (JAFZA)
column; and with a tracked meter name and the 02-03 row entirely absent the
engine does emit a delta for 02-04, namely 140 - 125 = 15, taken across the
gap from the 02-02 reading.  Both parts contradict the claim. -/
theorem gap_lookback_counterexample :
    computeDeltas sheetC1a 2 2024 = [] ∧
    dictGet (computeDeltas sheetC1b 2 2024) (⟨2024, 2, 4⟩, "JAFZA M1") = some 15 := by
  decide

/-- Claim C1 (amended): with a tracked meter column (name containing JAFZA)
and the 02-03 row present with a missing reading, the engine emits 10 for
02-01 and 15 for 02-02 and nothing for 02-03 and 02-04; the predecessor
consulted is the previous row of the sorted data rather than the calendar
predecessor, so with the 02-03 row entirely absent the engine emits
140 - 125 = 15 for 02-04; and a meter named M1 yields no deltas. -/
theorem rowwise_delta_scenario :
    dictGet (computeDeltas sheetC1c 2 2024) (⟨2024, 2, 1⟩, "JAFZA M1") = some 10 ∧
    dictGet (computeDeltas sheetC1c 2 2024) (⟨2024, 2, 2⟩, "JAFZA M1") = some 15 ∧
    dictGet (computeDeltas sheetC1c 2 2024) (⟨2024, 2, 3⟩, "JAFZA M1") = none ∧
    dictGet (computeDeltas sheetC1c 2 2024) (⟨2024, 2, 4⟩, "JAFZA M1") = none ∧
    dictGet (computeDeltas sheetC1b 2 2024) (⟨2024, 2, 4⟩, "JAFZA M1") = some 15 ∧
    computeDeltas sheetC1a 2 2024 = [] := by
  decide

/-! ### Claim C2: no pass-through of unmapped internal labels -/

/-- Claim C2 counterexample: with mapping A to ext-A and source meters A
and B, the processed output consists of the template rows only; no output
record carries the identifier B, so the claimed pass-through records for B
do not exist. -/
theorem no_pass_through_counterexample :
    process_solar_data sheetC2 tC2 2 2024 mapC2 = some outC2 ∧
    (∀ r ∈ outC2, ¬ r.refMeter = "B") := by
  decide

/-! ### Claim C3: failures are skipped silently, not reported -/

/-- Claim C3 counterexample: a run whose (2024-02-01, JAFZA 1) delta cannot
be computed (the current reading is NaN) returns exactly the same value as
the run on the input with that row absent altogether: the template row is
left unfilled and nothing else is returned, so no MissingDataEvent or
diagnostic list reaches the caller; the failure is silently dropped. -/
theorem silent_skip_counterexample :
    process_solar_data sheetC3a tC3 2 2024 mapC3 = some outC3 ∧
    process_solar_data sheetC3b tC3 2 2024 mapC3 = some outC3 := by
  decide

/-! ### Claim C7: unparsable dates are dropped, silently -/

theorem periodRows_filter_isSome {V : Type} (cols : List String)
    (rows : List (SolarRow V)) (month year : Int) :
    periodRows ⟨cols, rows⟩ month year =
      periodRows ⟨cols, rows.filter (fun r => r.date.isSome)⟩ month year := by
  unfold periodRows
  dsimp only
  induction rows with
  | nil => rfl
  | cons r rest ih =>
    cases hr : r.date with
    | none => simp [List.filter_cons, inWindow, hr, ih]
    | some d => simp [List.filter_cons, inWindow, hr, ih]

/-- Claim C7 (amended): rows with an unparsable or missing date are dropped
and the remaining rows are processed; the run is never fatal on their
account, but no diagnostic is reported either: the run is indistinguishable
from a run on the input without those rows. -/
theorem unparsable_date_rows_dropped {V A : Type} [Sub V] (cols : List String)
    (rows : List (SolarRow V)) (template : List (TRow V A)) (month year : Int)
    (mapping : List (String × String)) :
    process_solar_data ⟨cols, rows⟩ template month year mapping =
      process_solar_data ⟨cols, rows.filter (fun r => r.date.isSome)⟩
        template month year mapping := by
  unfold process_solar_data
  have hc : computeDeltas (⟨cols, rows⟩ : SolarSheet V) month year =
      computeDeltas ⟨cols, rows.filter (fun r => r.date.isSome)⟩ month year := by
    unfold computeDeltas monthData meterColumns
    dsimp only
    rw [periodRows_filter_isSome]
  rw [hc]

/-- Claim C7 counterexample: the run on an input containing a row with an
unparsable date (NaT) returns exactly the same value as the run without
that row; the row is dropped and processing continues, but no diagnostic is
reported for it anywhere in the returned value. -/
theorem dropped_row_silent_counterexample :
    process_solar_data sheetC7a tC3 2 2024 mapC3 = some outC7 ∧
    process_solar_data sheetC7b tC3 2 2024 mapC3 = some outC7 := by
  decide

/-! ### Claim C8: determinism -/

/-- Claim C8: two runs of the engine on identical inputs (same sheet, same
template, same month, year and mapping) produce identical output, records
in the same order; the engine is a pure function of its inputs with no
state shared across runs. -/
theorem engine_deterministic {V A : Type} [Sub V] (s1 s2 : SolarSheet V)
    (t1 t2 : List (TRow V A)) (m1 m2 y1 y2 : Int)
    (p1 p2 : List (String × String))
    (hs : s1 = s2) (ht : t1 = t2) (hm : m1 = m2) (hy : y1 = y2) (hp : p1 = p2) :
    process_solar_data s1 t1 m1 y1 p1 = process_solar_data s2 t2 m2 y2 p2 := by
  subst hs; subst ht; subst hm; subst hy; subst hp; rfl

/-- Witness for claim C8 on a concrete run. -/
theorem engine_deterministic_witness :
    process_solar_data sheetC2 tC2 2 2024 mapC2 =
      process_solar_data sheetC2 tC2 2 2024 mapC2 :=
  engine_deterministic sheetC2 sheetC2 tC2 tC2 2 2 2024 2024 mapC2 mapC2
    rfl rfl rfl rfl rfl

/-! ### Claim C9: only JAFZA columns yield deltas -/

/-- Claim C9: every key of the computed delta table has a meter name
passing the two JAFZA substring checks of the source; the default-mapping
columns CGF and AFR fail the checks, and a template row whose reference
meter reverse-resolves to a meter failing the checks is never filled. -/
theorem deltas_only_jafza {V A : Type} [Sub V] (sheet : SolarSheet V)
    (month year : Int) (mapping : List (String × String)) :
    (∀ e ∈ computeDeltas sheet month year, hasJafza e.1.2 = true) ∧
    hasJafza "CGF" = false ∧ hasJafza "AFR" = false ∧
    (∀ (r : PRow V A) (k : String), findKey mapping r.refMeter = some k →
      hasJafza k = false → fillRow (computeDeltas sheet month year) mapping r = r) := by
  have hj : ∀ e ∈ computeDeltas sheet month year, hasJafza e.1.2 = true := by
    intro e he
    obtain ⟨m2, hm2, he2⟩ := List.mem_flatMap.mp he
    rw [meterDeltas_key_snd he2]
    exact (List.mem_filter.mp hm2).2
  refine ⟨hj, by decide, by decide, ?_⟩
  intro r k hk hnj
  unfold fillRow
  rw [hk]
  dsimp only
  by_cases hke : k = ""
  · rw [if_pos hke]
  · rw [if_neg hke]
    have hnone : dictGet (computeDeltas sheet month year) (r.time.date, k) = none := by
      apply dictGet_eq_none
      intro p hp hc
      have hh := hj p hp
      rw [hc] at hh
      dsimp only at hh
      rw [hnj] at hh
      cases hh
    rw [hnone]

/-- Witness for claim C9: CGF fails the checks, and a concrete template row
reverse-resolving to CGF is returned unchanged. -/
theorem deltas_only_jafza_witness :
    hasJafza "CGF" = false ∧
    fillRow (computeDeltas sheetC1b 2 2024) mapC9 rowC9 = rowC9 := by
  have h := deltas_only_jafza (V := Int) (A := Unit) sheetC1b 2 2024 mapC9
  exact ⟨h.2.1, h.2.2.2 rowC9 "CGF" (by decide) h.2.1⟩

/-! ### Template-side lemmas -/

theorem fillRow_fields {V A : Type} (deltas : List ((Date × String) × V))
    (mapping : List (String × String)) (r : PRow V A) :
    (fillRow deltas mapping r).time = r.time ∧
    (fillRow deltas mapping r).refMeter = r.refMeter ∧
    (fillRow deltas mapping r).extra = r.extra := by
  unfold fillRow
  cases findKey mapping r.refMeter with
  | none => exact ⟨rfl, rfl, rfl⟩
  | some k =>
    dsimp only
    by_cases hke : k = ""
    · rw [if_pos hke]; exact ⟨rfl, rfl, rfl⟩
    · rw [if_neg hke]
      cases dictGet deltas (r.time.date, k) with
      | none => exact ⟨rfl, rfl, rfl⟩
      | some x => exact ⟨rfl, rfl, rfl⟩

theorem fillRow_reading_cases {V A : Type} (deltas : List ((Date × String) × V))
    (mapping : List (String × String)) (r : PRow V A) :
    (fillRow deltas mapping r).reading = r.reading ∨
    ∃ k x, findKey mapping r.refMeter = some k ∧ ¬ k = "" ∧
      dictGet deltas (r.time.date, k) = some x ∧
      (fillRow deltas mapping r).reading = some x := by
  unfold fillRow
  cases hf : findKey mapping r.refMeter with
  | none => left; rfl
  | some k =>
    dsimp only
    by_cases hke : k = ""
    · rw [if_pos hke]; left; rfl
    · rw [if_neg hke]
      cases hd : dictGet deltas (r.time.date, k) with
      | none => left; rfl
      | some x => right; exact ⟨k, x, rfl, hke, hd, rfl⟩

theorem fillRow_keep_none {V A : Type} {deltas : List ((Date × String) × V)}
    {mapping : List (String × String)} {r : PRow V A}
    (hk : findKey mapping r.refMeter = none) : fillRow deltas mapping r = r := by
  unfold fillRow
  rw [hk]

theorem fillRow_keep_empty {V A : Type} {deltas : List ((Date × String) × V)}
    {mapping : List (String × String)} {r : PRow V A}
    (hk : findKey mapping r.refMeter = some "") : fillRow deltas mapping r = r := by
  unfold fillRow
  rw [hk]
  dsimp only
  rw [if_pos rfl]

theorem fillRow_keep_nodelta {V A : Type} {deltas : List ((Date × String) × V)}
    {mapping : List (String × String)} {r : PRow V A} {k : String}
    (hk : findKey mapping r.refMeter = some k) (hke : ¬ k = "")
    (hd : dictGet deltas (r.time.date, k) = none) : fillRow deltas mapping r = r := by
  unfold fillRow
  rw [hk]
  dsimp only
  rw [if_neg hke, hd]

theorem parseAllTimes_get {V A : Type} :
    ∀ {l : List (TRow V A)} {pl : List (PRow V A)}, parseAllTimes l = some pl →
      pl.length = l.length ∧
      ∀ i (h1 : i < l.length) (h2 : i < pl.length),
        parseTime l[i].time = some pl[i].time ∧
        pl[i].refMeter = l[i].refMeter ∧
        pl[i].reading = l[i].reading ∧
        pl[i].extra = l[i].extra := by
  intro l
  induction l with
  | nil =>
    intro pl h
    simp only [parseAllTimes] at h
    injection h with h
    subst h
    exact ⟨rfl, fun i h1 h2 => absurd h1 (by simp)⟩
  | cons r rest ih =>
    intro pl h
    simp only [parseAllTimes] at h
    cases hpt : parseTime r.time with
    | none =>
      rw [hpt] at h
      dsimp only at h
      exact Option.noConfusion h
    | some ts =>
      rw [hpt] at h
      cases hrest : parseAllTimes rest with
      | none =>
        rw [hrest] at h
        dsimp only at h
        exact Option.noConfusion h
      | some prest =>
        rw [hrest] at h
        dsimp only at h
        injection h with h
        subst h
        obtain ⟨hlen, hfields⟩ := ih hrest
        constructor
        · simp [hlen]
        · intro i h1 h2
          cases i with
          | zero => exact ⟨hpt, rfl, rfl, rfl⟩
          | succ j =>
            have h1a : j < rest.length := by simpa using h1
            have h2a : j < prest.length := by simpa using h2
            exact hfields j h1a h2a

/-! ### Claim C2 (amended) -/

/-- Claim C2 (amended): the engine performs no pass-through of unmapped
internal labels into the output; the output rows are exactly the template
rows, whose reference meters are returned unchanged, and a template row
whose reference meter is not a value of the mapping keeps its reading cell
unchanged.  An internal source meter absent from the mapping therefore
never surfaces in the output under its own label. -/
theorem no_pass_through_amended {V A : Type} [Sub V] (sheet : SolarSheet V)
    (template : List (TRow V A)) (month year : Int)
    (mapping : List (String × String)) (out : List (PRow V A))
    (h : process_solar_data sheet template month year mapping = some out) :
    out.map (fun r => r.refMeter) = template.map (fun r => r.refMeter) ∧
    ∀ i (h1 : i < template.length) (h2 : i < out.length),
      findKey mapping template[i].refMeter = none →
      out[i].reading = template[i].reading := by
  unfold process_solar_data at h
  cases hpt : parseAllTimes template with
  | none =>
    rw [hpt] at h
    exact Option.noConfusion h
  | some pt =>
    rw [hpt] at h
    dsimp only at h
    injection h with h
    subst h
    obtain ⟨hlen, hfields⟩ := parseAllTimes_get hpt
    constructor
    · apply List.ext_getElem
      · simp [hlen]
      · intro i hi1 hi2
        simp only [List.getElem_map]
        have hi : i < template.length := by simpa using hi2
        have hip : i < pt.length := by simpa using hi1
        have hf := hfields i hi hip
        rw [(fillRow_fields _ _ _).2.1, hf.2.1]
    · intro i h1 h2 hfk
      have h2p : i < pt.length := by simpa using h2
      have hf := hfields i h1 h2p
      simp only [List.getElem_map]
      have hkeep : fillRow (computeDeltas sheet month year) mapping pt[i] = pt[i] := by
        apply fillRow_keep_none
        rw [hf.2.1]
        exact hfk
      rw [hkeep, hf.2.2.1]

/-- Witness for claim C2 (amended) on the concrete claim scenario. -/
theorem no_pass_through_amended_witness :
    outC2.map (fun r => r.refMeter) = tC2.map (fun r => r.refMeter) ∧
    ∀ i (h1 : i < tC2.length) (h2 : i < outC2.length),
      findKey mapC2 tC2[i].refMeter = none →
      outC2[i].reading = tC2[i].reading :=
  no_pass_through_amended sheetC2 tC2 2 2024 mapC2 outC2 (by decide)

/-! ### Claim C3 (amended) -/

/-- Claim C3 (amended): a (date, meter) pair whose delta cannot be
computed is skipped silently: the run does not abort (whenever the Time
column parses, the engine returns the filled template), the affected row
keeps its original reading cell, and only the template is returned; no
diagnostic channel exists. -/
theorem missing_pairs_skipped {V A : Type} [Sub V] (sheet : SolarSheet V)
    (template : List (TRow V A)) (month year : Int)
    (mapping : List (String × String)) (pt : List (PRow V A))
    (h : parseAllTimes template = some pt) :
    process_solar_data sheet template month year mapping =
      some (pt.map (fillRow (computeDeltas sheet month year) mapping)) ∧
    ∀ r ∈ pt, (∀ k, findKey mapping r.refMeter = some k → ¬ k = "" →
        dictGet (computeDeltas sheet month year) (r.time.date, k) = none) →
      fillRow (computeDeltas sheet month year) mapping r = r := by
  constructor
  · unfold process_solar_data
    rw [h]
  · intro r _ hnone
    cases hf : findKey mapping r.refMeter with
    | none => exact fillRow_keep_none hf
    | some k =>
      by_cases hke : k = ""
      · subst hke
        exact fillRow_keep_empty hf
      · exact fillRow_keep_nodelta hf hke (hnone k hf hke)

/-- Witness for claim C3 (amended) on the concrete failing run. -/
theorem missing_pairs_skipped_witness :
    process_solar_data sheetC3a tC3 2 2024 mapC3 =
      some (outC3.map (fillRow (computeDeltas sheetC3a 2 2024) mapC3)) ∧
    ∀ r ∈ outC3, (∀ k, findKey mapC3 r.refMeter = some k → ¬ k = "" →
        dictGet (computeDeltas sheetC3a 2 2024) (r.time.date, k) = none) →
      fillRow (computeDeltas sheetC3a 2 2024) mapC3 r = r :=
  missing_pairs_skipped sheetC3a tC3 2 2024 mapC3 outC3 (by decide)

/-! ### Claim C10: frame property of the template update -/

/-- Claim C10: the engine modifies only the Time column (each cell replaced
by its parsed timestamp) and the reading cells of rows whose reference
meter reverse-resolves through the mapping to a non-empty key with a
computed delta for that row date (such cells receive exactly that delta);
reference meters, all other cells (the opaque payload), the set of rows and
the row order are returned unchanged. -/
theorem template_frame {V A : Type} [Sub V] (sheet : SolarSheet V)
    (template : List (TRow V A)) (month year : Int)
    (mapping : List (String × String)) (out : List (PRow V A))
    (h : process_solar_data sheet template month year mapping = some out) :
    out.length = template.length ∧
    ∀ i (h1 : i < template.length) (h2 : i < out.length),
      parseTime template[i].time = some out[i].time ∧
      out[i].refMeter = template[i].refMeter ∧
      out[i].extra = template[i].extra ∧
      (out[i].reading = template[i].reading ∨
        ∃ k x, findKey mapping template[i].refMeter = some k ∧ ¬ k = "" ∧
          dictGet (computeDeltas sheet month year) (out[i].time.date, k) = some x ∧
          out[i].reading = some x) := by
  unfold process_solar_data at h
  cases hpt : parseAllTimes template with
  | none =>
    rw [hpt] at h
    exact Option.noConfusion h
  | some pt =>
    rw [hpt] at h
    dsimp only at h
    injection h with h
    subst h
    obtain ⟨hlen, hfields⟩ := parseAllTimes_get hpt
    constructor
    · simp [hlen]
    · intro i h1 h2
      have h2p : i < pt.length := by simpa using h2
      have hfr := hfields i h1 h2p
      simp only [List.getElem_map]
      have hfl := fillRow_fields (computeDeltas sheet month year) mapping pt[i]
      refine ⟨?_, ?_, ?_, ?_⟩
      · rw [hfl.1]
        exact hfr.1
      · rw [hfl.2.1, hfr.2.1]
      · rw [hfl.2.2, hfr.2.2.2]
      · rcases fillRow_reading_cases (computeDeltas sheet month year) mapping pt[i] with
          hc | ⟨k, x, hk, hke, hd, hres⟩
        · left
          rw [hc, hfr.2.2.1]
        · right
          refine ⟨k, x, ?_, hke, ?_, hres⟩
          · rw [← hfr.2.1]
            exact hk
          · rw [hfl.1]
            exact hd

/-- Witness for claim C10 on a concrete successful run that fills a cell. -/
theorem template_frame_witness :
    outC7.length = tC3.length ∧
    ∀ i (h1 : i < tC3.length) (h2 : i < outC7.length),
      parseTime tC3[i].time = some outC7[i].time ∧
      outC7[i].refMeter = tC3[i].refMeter ∧
      outC7[i].extra = tC3[i].extra ∧
      (outC7[i].reading = tC3[i].reading ∨
        ∃ k x, findKey mapC3 tC3[i].refMeter = some k ∧ ¬ k = "" ∧
          dictGet (computeDeltas sheetC7b 2 2024) (outC7[i].time.date, k) = some x ∧
          outC7[i].reading = some x) :=
  template_frame sheetC7b tC3 2 2024 mapC3 outC7 (by decide)

/-! ### Claim C6: strictly increasing readings give nonnegative deltas -/

theorem monthData_pairwise_lt {V : Type} {sheet : SolarSheet V} {month year : Int}
    (hvalid : ∀ r ∈ sheet.rows, validOptDate r.date)
    (hnd : ((periodRows sheet month year).map rowDate).Nodup) :
    List.Pairwise (fun r s : SolarRow V => dkey (rowDate r) < dkey (rowDate s))
      (monthData sheet month year) := by
  have hperm : (monthData sheet month year).Perm (periodRows sheet month year) :=
    List.perm_insertionSort rowLe (periodRows sheet month year)
  have hsort : List.Sorted rowLe (monthData sheet month year) :=
    List.sorted_insertionSort rowLe (periodRows sheet month year)
  have hmdnd : ((monthData sheet month year).map rowDate).Nodup :=
    ((hperm.map rowDate).nodup_iff).mpr hnd
  have hne : List.Pairwise (fun r s : SolarRow V => ¬ rowDate r = rowDate s)
      (monthData sheet month year) := List.pairwise_map.mp hmdnd
  have hcomb := List.Pairwise.and hsort hne
  refine List.Pairwise.imp_of_mem ?_ hcomb
  intro a b ha hb hab
  obtain ⟨hle, hneq⟩ := hab
  have hav : validDate (rowDate a) :=
    (mem_periodRows_elim (hperm.mem_iff.mp ha) hvalid).2.1
  have hbv : validDate (rowDate b) :=
    (mem_periodRows_elim (hperm.mem_iff.mp hb) hvalid).2.1
  have hle2 : dkey (rowDate a) ≤ dkey (rowDate b) := hle
  have hne2 : ¬ dkey (rowDate a) = dkey (rowDate b) := fun hc =>
    hneq (dkey_inj_valid hav hbv hc)
  omega

theorem meterDeltas_nonneg_aux {V : Type} [LinearOrderedAddCommGroup V]
    {fd : Date} {meter : String} {Q : SolarRow V → Prop}
    (hmono : ∀ r, Q r → ∀ s, Q s → dkey (rowDate r) < dkey (rowDate s) →
      valLt (getVal r meter) (getVal s meter)) :
    ∀ (l : List (SolarRow V)) (pv : Option V),
      List.Pairwise (fun r s => dkey (rowDate r) < dkey (rowDate s)) l →
      (∀ r ∈ l, Q r) →
      (∀ a, pv = some a → ∀ s ∈ l, ∀ b, getVal s meter = some b → a < b) →
      ∀ e ∈ meterDeltas fd meter pv l, 0 ≤ e.2 := by
  intro l
  induction l with
  | nil => intro pv _ _ _ e he; simp [meterDeltas] at he
  | cons r rest ih =>
    intro pv hpw hQ hprev e he
    simp only [meterDeltas] at he
    rcases List.mem_append.mp he with h1 | h2
    · cases hpv : pv with
      | none => rw [hpv] at h1; simp at h1
      | some a =>
        cases hcur : getVal r meter with
        | none => rw [hpv, hcur] at h1; simp at h1
        | some b =>
          rw [hpv, hcur] at h1
          dsimp only at h1
          by_cases hc : dkey fd ≤ dkey (rowDate r)
          · rw [if_pos hc] at h1
            have he2 := List.mem_singleton.mp h1
            subst he2
            have hab : a < b :=
              hprev a hpv r (List.mem_cons_self r rest) b hcur
            exact sub_nonneg.mpr (le_of_lt hab)
          · rw [if_neg hc] at h1
            simp at h1
    · refine ih (getVal r meter) (List.pairwise_cons.mp hpw).2
        (fun s hs => hQ s (List.mem_cons_of_mem r hs)) ?_ e h2
      intro a ha s hs b hb
      have hlt := (List.pairwise_cons.mp hpw).1 s hs
      have hv := hmono r (hQ r (List.mem_cons_self r rest)) s
        (hQ s (List.mem_cons_of_mem r hs)) hlt
      rw [ha, hb] at hv
      exact hv

/-- Claim C6: for a meter whose readings are strictly increasing over the
dates present in the period window (the in-month dates plus the anchor
day, with at most one row per date and valid dates, per the RawReading
invariant), every delta the engine computes for that meter is
nonnegative. -/
theorem increasing_readings_nonneg_deltas {V : Type} [LinearOrderedAddCommGroup V]
    (sheet : SolarSheet V) (month year : Int) (meter : String)
    (hvalid : ∀ r ∈ sheet.rows, validOptDate r.date)
    (hnd : ((periodRows sheet month year).map rowDate).Nodup)
    (hmono : ∀ r ∈ periodRows sheet month year, ∀ s ∈ periodRows sheet month year,
      dkey (rowDate r) < dkey (rowDate s) →
      valLt (getVal r meter) (getVal s meter)) :
    ∀ e ∈ computeDeltas sheet month year, e.1.2 = meter → 0 ≤ e.2 := by
  intro e he hkey
  obtain ⟨m2, _, he2⟩ := List.mem_flatMap.mp he
  have hm2 : m2 = meter := by rw [← hkey, meterDeltas_key_snd he2]
  subst hm2
  have hperm : (monthData sheet month year).Perm (periodRows sheet month year) :=
    List.perm_insertionSort rowLe (periodRows sheet month year)
  refine meterDeltas_nonneg_aux (Q := fun r => r ∈ periodRows sheet month year)
    (fun r hr s hs hlt => hmono r hr s hs hlt)
    (monthData sheet month year) none
    (monthData_pairwise_lt hvalid hnd)
    (fun r hr => hperm.mem_iff.mp hr) ?_ e he2
  intro a ha
  exact absurd ha (by simp)

/-- Witness for claim C6 on a concrete strictly increasing sheet, applied
to the concrete delta entry the engine emits for 2024-02-01. -/
theorem increasing_readings_nonneg_deltas_witness :
    (0 : Int) ≤ ((((⟨2024, 2, 1⟩ : Date), "JAFZA M1"), (10 : Int))).2 :=
  increasing_readings_nonneg_deltas sheetC1b 2 2024 "JAFZA M1"
    (by decide) (by decide) (by decide)
    ((⟨2024, 2, 1⟩, "JAFZA M1"), 10) (by decide) (by decide)

/-! ### Claim C4: the first-day delta -/

theorem dkey_inmonth {month year : Int} {d : Date} (h1 : d.month = month)
    (h2 : d.year = year) (hval : validDate d) :
    dkey ⟨year, month, 1⟩ ≤ dkey d ∧
      (¬ d = ⟨year, month, 1⟩ → dkey ⟨year, month, 1⟩ < dkey d) := by
  obtain ⟨hv1, hv2, hv3, hv4⟩ := hval
  have hda : dkey d = d.year * 10000 + d.month * 100 + d.day := rfl
  have hdb : dkey ⟨year, month, 1⟩ = year * 10000 + month * 100 + 1 := rfl
  constructor
  · omega
  · intro hne
    have hdd : ¬ d.day = 1 := by
      intro hd1
      apply hne
      have hde : d = ⟨d.year, d.month, d.day⟩ := rfl
      rw [hde, h1, h2, hd1]
    omega

theorem period_row_classify {V : Type} {sheet : SolarSheet V} (month year : Int)
    (hvalid : ∀ r ∈ sheet.rows, validOptDate r.date) :
    ∀ x ∈ periodRows sheet month year,
      rowDate x = anchorDay month year ∨
      (dkey (⟨year, month, 1⟩ : Date) ≤ dkey (rowDate x) ∧
        (¬ rowDate x = (⟨year, month, 1⟩ : Date) →
          dkey (⟨year, month, 1⟩ : Date) < dkey (rowDate x))) := by
  intro x hx
  obtain ⟨_, hval, hcasex⟩ := mem_periodRows_elim hx hvalid
  rcases hcasex with ⟨hmm, hyy⟩ | hanch
  · right; exact dkey_inmonth hmm hyy hval
  · left; exact hanch

theorem monthData_two_head {V : Type} {sheet : SolarSheet V} {month year : Int}
    {rA rF : SolarRow V}
    (hm1 : 1 ≤ month) (hm2 : month ≤ 12)
    (hvalid : ∀ r ∈ sheet.rows, validOptDate r.date)
    (hnd : ((periodRows sheet month year).map rowDate).Nodup)
    (hrAP : rA ∈ periodRows sheet month year)
    (hrAd : rowDate rA = anchorDay month year)
    (hrFP : rF ∈ periodRows sheet month year)
    (hrFd : rowDate rF = ⟨year, month, 1⟩) :
    ∃ t2, monthData sheet month year = rA :: rF :: t2 ∧
      ∀ x ∈ t2, ¬ rowDate x = (⟨year, month, 1⟩ : Date) := by
  have hperm : (monthData sheet month year).Perm (periodRows sheet month year) :=
    List.perm_insertionSort rowLe (periodRows sheet month year)
  have hsort : List.Sorted rowLe (monthData sheet month year) :=
    List.sorted_insertionSort rowLe (periodRows sheet month year)
  have hPnd : (periodRows sheet month year).Nodup := List.Nodup.of_map rowDate hnd
  have hmdnd : (monthData sheet month year).Nodup := hperm.nodup_iff.mpr hPnd
  have hinj : ∀ x ∈ periodRows sheet month year, ∀ z ∈ periodRows sheet month year,
      rowDate x = rowDate z → x = z :=
    fun x hx z hz hxz => List.inj_on_of_nodup_map hnd hx hz hxz
  have hanch_lt : dkey (anchorDay month year) < dkey (⟨year, month, 1⟩ : Date) :=
    anchor_lt_first hm1 hm2
  have hclassify := period_row_classify month year hvalid
  have hrAmd : rA ∈ monthData sheet month year := hperm.mem_iff.mpr hrAP
  have hAmin : ∀ x ∈ monthData sheet month year, ¬ x = rA →
      dkey (rowDate rA) < dkey (rowDate x) := by
    intro x hx hne
    have hxP := hperm.mem_iff.mp hx
    rcases hclassify x hxP with hxa | ⟨hge, _⟩
    · exact absurd (hinj x hxP rA hrAP (by rw [hxa, hrAd])) hne
    · rw [hrAd]; omega
  obtain ⟨t1, hmd1, hsort1, hnd1, hrAnotin⟩ :=
    sorted_head_min hsort hmdnd hrAmd hAmin
  have hrFmd : rF ∈ monthData sheet month year := hperm.mem_iff.mpr hrFP
  have hrFne : ¬ rF = rA := by
    intro hc
    have hcd : rowDate rA = (⟨year, month, 1⟩ : Date) := by rw [← hc, hrFd]
    rw [hrAd] at hcd
    rw [hcd] at hanch_lt
    omega
  have hrFt1 : rF ∈ t1 := by
    rw [hmd1] at hrFmd
    rcases List.mem_cons.mp hrFmd with hc | hc
    · exact absurd hc hrFne
    · exact hc
  have hFmin : ∀ x ∈ t1, ¬ x = rF → dkey (rowDate rF) < dkey (rowDate x) := by
    intro x hx hne
    have hxmd : x ∈ monthData sheet month year := by
      rw [hmd1]; exact List.mem_cons_of_mem rA hx
    have hxP := hperm.mem_iff.mp hxmd
    rcases hclassify x hxP with hxa | ⟨_, hstrict⟩
    · exfalso
      have hxA : x = rA := hinj x hxP rA hrAP (by rw [hxa, hrAd])
      exact hrAnotin (hxA ▸ hx)
    · rw [hrFd]
      apply hstrict
      intro hcx
      exact hne (hinj x hxP rF hrFP (by rw [hcx, hrFd]))
  obtain ⟨t2, hmd2, hsort2, hnd2, hrFnotin⟩ :=
    sorted_head_min hsort1 hnd1 hrFt1 hFmin
  refine ⟨t2, by rw [hmd1, hmd2], ?_⟩
  intro x hx hcx
  have hxt1 : x ∈ t1 := by rw [hmd2]; exact List.mem_cons_of_mem rF hx
  have hxne : ¬ x = rF := fun hcc => hrFnotin (hcc ▸ hx)
  have hlt := hFmin x hxt1 hxne
  rw [hrFd, hcx] at hlt
  omega

theorem monthData_one_head {V : Type} {sheet : SolarSheet V} {month year : Int}
    {rF : SolarRow V}
    (hvalid : ∀ r ∈ sheet.rows, validOptDate r.date)
    (hnd : ((periodRows sheet month year).map rowDate).Nodup)
    (hnoA : ∀ x ∈ periodRows sheet month year, ¬ rowDate x = anchorDay month year)
    (hrFP : rF ∈ periodRows sheet month year)
    (hrFd : rowDate rF = ⟨year, month, 1⟩) :
    ∃ t, monthData sheet month year = rF :: t ∧
      ∀ x ∈ t, ¬ rowDate x = (⟨year, month, 1⟩ : Date) := by
  have hperm : (monthData sheet month year).Perm (periodRows sheet month year) :=
    List.perm_insertionSort rowLe (periodRows sheet month year)
  have hsort : List.Sorted rowLe (monthData sheet month year) :=
    List.sorted_insertionSort rowLe (periodRows sheet month year)
  have hPnd : (periodRows sheet month year).Nodup := List.Nodup.of_map rowDate hnd
  have hmdnd : (monthData sheet month year).Nodup := hperm.nodup_iff.mpr hPnd
  have hinj : ∀ x ∈ periodRows sheet month year, ∀ z ∈ periodRows sheet month year,
      rowDate x = rowDate z → x = z :=
    fun x hx z hz hxz => List.inj_on_of_nodup_map hnd hx hz hxz
  have hclassify := period_row_classify month year hvalid
  have hrFmd : rF ∈ monthData sheet month year := hperm.mem_iff.mpr hrFP
  have hFmin : ∀ x ∈ monthData sheet month year, ¬ x = rF →
      dkey (rowDate rF) < dkey (rowDate x) := by
    intro x hx hne
    have hxP := hperm.mem_iff.mp hx
    rcases hclassify x hxP with hxa | ⟨_, hstrict⟩
    · exact absurd hxa (hnoA x hxP)
    · rw [hrFd]
      apply hstrict
      intro hcx
      exact hne (hinj x hxP rF hrFP (by rw [hcx, hrFd]))
  obtain ⟨t, hmdeq, hsortt, hndt, hrFnotin⟩ :=
    sorted_head_min hsort hmdnd hrFmd hFmin
  refine ⟨t, hmdeq, ?_⟩
  intro x hx hcx
  have hxmd : x ∈ monthData sheet month year := by
    rw [hmdeq]; exact List.mem_cons_of_mem rF hx
  have hxne : ¬ x = rF := fun hcc => hrFnotin (hcc ▸ hx)
  have hlt := hFmin x hxmd hxne
  rw [hrFd, hcx] at hlt
  omega

theorem meterDeltas_cons_pv_none {V : Type} [Sub V] (fd : Date) (meter : String)
    (r : SolarRow V) (rest : List (SolarRow V)) :
    meterDeltas fd meter none (r :: rest) =
      meterDeltas fd meter (getVal r meter) rest := by
  simp only [meterDeltas]
  cases getVal r meter <;> rfl

theorem meterDeltas_cons_hit {V : Type} [Sub V] {fd : Date} {meter : String}
    {r : SolarRow V} {b : V} (a : V) (rest : List (SolarRow V))
    (hcur : getVal r meter = some b) (hd : rowDate r = fd) :
    meterDeltas fd meter (some a) (r :: rest) =
      ((fd, meter), b - a) :: meterDeltas fd meter (some b) rest := by
  simp only [meterDeltas, hcur, hd]
  rw [if_pos (le_refl _)]
  rfl

/-- Claim C4 (amended): for a tracked meter (a column passing the JAFZA
checks of the source), with distinct column labels, valid dates and at most
one row per date (the RawReading invariant): the delta emitted for the
first day of the period equals value(first_day) minus value(anchor_day)
when both readings are present, and no first-day delta is emitted when
either reading is absent (the pair is skipped, with no diagnostic
reported). -/
theorem first_day_delta {V : Type} [Sub V] (sheet : SolarSheet V)
    (month year : Int) (meter : String)
    (hm1 : 1 ≤ month) (hm2 : month ≤ 12)
    (hcols : sheet.cols.Nodup)
    (hmeter : meter ∈ meterColumns sheet)
    (hvalid : ∀ r ∈ sheet.rows, validOptDate r.date)
    (hnd : ((periodRows sheet month year).map rowDate).Nodup) :
    (∀ f a, readingAt sheet month year ⟨year, month, 1⟩ meter = some f →
      readingAt sheet month year (anchorDay month year) meter = some a →
      dictGet (computeDeltas sheet month year) (⟨year, month, 1⟩, meter) =
        some (f - a)) ∧
    ((readingAt sheet month year ⟨year, month, 1⟩ meter = none ∨
        readingAt sheet month year (anchorDay month year) meter = none) →
      dictGet (computeDeltas sheet month year) (⟨year, month, 1⟩, meter) = none) := by
  have hperm : (monthData sheet month year).Perm (periodRows sheet month year) :=
    List.perm_insertionSort rowLe (periodRows sheet month year)
  have hinj : ∀ x ∈ periodRows sheet month year, ∀ z ∈ periodRows sheet month year,
      rowDate x = rowDate z → x = z :=
    fun x hx z hz hxz => List.inj_on_of_nodup_map hnd hx hz hxz
  have hred : dictGet (computeDeltas sheet month year) (⟨year, month, 1⟩, meter) =
      dictGet (meterDeltas ⟨year, month, 1⟩ meter none (monthData sheet month year))
        (⟨year, month, 1⟩, meter) := by
    unfold computeDeltas
    exact dictGet_flatMap_eq _ (fun m e he => meterDeltas_key_snd he)
      (meterColumns sheet) (List.Nodup.filter _ hcols) hmeter _
  constructor
  · intro f a hf ha
    unfold readingAt at hf ha
    cases hFf : (periodRows sheet month year).find?
        (fun r => decide (rowDate r = (⟨year, month, 1⟩ : Date))) with
    | none => rw [hFf] at hf; exact Option.noConfusion hf
    | some rF =>
      rw [hFf] at hf
      dsimp only at hf
      obtain ⟨hrFP, hrFd⟩ := find?_date_some hFf
      cases hAf : (periodRows sheet month year).find?
          (fun r => decide (rowDate r = anchorDay month year)) with
      | none => rw [hAf] at ha; exact Option.noConfusion ha
      | some rA =>
        rw [hAf] at ha
        dsimp only at ha
        obtain ⟨hrAP, hrAd⟩ := find?_date_some hAf
        obtain ⟨t2, hmdeq, ht2⟩ :=
          monthData_two_head hm1 hm2 hvalid hnd hrAP hrAd hrFP hrFd
        rw [hred, hmdeq, meterDeltas_cons_pv_none, ha,
            meterDeltas_cons_hit a t2 hf hrFd]
        have htail : dictGet
            (meterDeltas (⟨year, month, 1⟩ : Date) meter (some f) t2)
            ((⟨year, month, 1⟩ : Date), meter) = none :=
          meterDeltas_no_fd_key ht2
        simp only [dictGet]
        rw [htail]
        simp
  · intro hcase
    rw [hred]
    cases hFf : (periodRows sheet month year).find?
        (fun r => decide (rowDate r = (⟨year, month, 1⟩ : Date))) with
    | none =>
      apply meterDeltas_no_fd_key
      intro x hx
      exact find?_date_none hFf x (hperm.mem_iff.mp hx)
    | some rF =>
      obtain ⟨hrFP, hrFd⟩ := find?_date_some hFf
      rcases hcase with hfn | han
      · unfold readingAt at hfn
        rw [hFf] at hfn
        dsimp only at hfn
        apply dictGet_eq_none
        intro p hp hc
        obtain ⟨x, hx, h1, h2, b, hb⟩ := meterDeltas_mem hp
        have hxP := hperm.mem_iff.mp hx
        have hp1 : p.1.1 = (⟨year, month, 1⟩ : Date) := by rw [hc]
        have hdx : rowDate x = (⟨year, month, 1⟩ : Date) := by rw [← h1, hp1]
        have hxrf : x = rF := hinj x hxP rF hrFP (by rw [hdx, hrFd])
        rw [hxrf, hfn] at hb
        exact Option.noConfusion hb
      · unfold readingAt at han
        cases hAf : (periodRows sheet month year).find?
            (fun r => decide (rowDate r = anchorDay month year)) with
        | none =>
          have hnoA : ∀ x ∈ periodRows sheet month year,
              ¬ rowDate x = anchorDay month year :=
            fun x hx => find?_date_none hAf x hx
          obtain ⟨t, hmdeq, ht⟩ := monthData_one_head hvalid hnd hnoA hrFP hrFd
          rw [hmdeq, meterDeltas_cons_pv_none]
          exact meterDeltas_no_fd_key ht
        | some rA =>
          rw [hAf] at han
          dsimp only at han
          obtain ⟨hrAP, hrAd⟩ := find?_date_some hAf
          obtain ⟨t2, hmdeq, ht2⟩ :=
            monthData_two_head hm1 hm2 hvalid hnd hrAP hrAd hrFP hrFd
          rw [hmdeq, meterDeltas_cons_pv_none, han, meterDeltas_cons_pv_none]
          exact meterDeltas_no_fd_key ht2

/-- Claim C4 counterexample: the claim quantifies over every meter, but for
the meter named M1 (not a tracked JAFZA column) the engine emits no
first-day delta even though both the first-day and the anchor readings are
present, and no MissingDataEvent exists anywhere in the return value. -/
theorem first_day_delta_counterexample :
    readingAt sheetC1a 2 2024 ⟨2024, 2, 1⟩ "M1" = some 110 ∧
    readingAt sheetC1a 2 2024 (anchorDay 2 2024) "M1" = some 100 ∧
    dictGet (computeDeltas sheetC1a 2 2024) (⟨2024, 2, 1⟩, "M1") = none := by
  decide

/-- Witness for claim C4 (amended) on a concrete tracked meter with both
the first-day and anchor readings present. -/
theorem first_day_delta_witness :
    dictGet (computeDeltas sheetC1b 2 2024) (⟨2024, 2, 1⟩, "JAFZA M1") =
      some (110 - 100) :=
  (first_day_delta sheetC1b 2 2024 "JAFZA M1" (by decide) (by decide) (by decide)
      (by decide) (by decide) (by decide)).1 110 100 (by decide) (by decide)

end DHLSolar
